import Mathlib

/-!
Shallow embedding of `dstoolbox.sklearn.transformers._encoders`
(`_check_categorical`, `Categorizer`, `CategoryGrouper`,
`CategoryMissingAdder`) over an explicit model of pandas DataFrames with
categorical columns, followed by theorems settling the claims about that
module.

Modelling conventions:
- cell values are `Option String` (`none` is `NaN`);
- a `Series` carries its dtype tag, its cells and (when categorical) its
  declared category list;
- a `DataFrame` carries the row index (pandas row labels), because
  `CategoryGrouper.transform` indexes rows by label and can enlarge the
  frame;
- fallible pandas / sklearn operations return `Except String`;
- the float `threshold_relative` and the float shares are modelled as
  exact rationals; a share with an empty denominator compares as `False`,
  mirroring the `NaN >= t` comparison in pandas.
-/

inductive Dtype
  | categorical
  | object
  | numeric
deriving DecidableEq

/-- A pandas row label: default `RangeIndex` labels are integers, while
label-based enlargement can introduce string labels. -/
inductive RowLab
  | num (n : Nat)
  | str (s : String)
deriving DecidableEq

structure Series where
  dtype : Dtype
  values : List (Option String)
  categories : List String
deriving DecidableEq

structure DataFrame where
  index : List RowLab
  cols : List (String × Series)
deriving DecidableEq

/-- Lookup in an assoc list with a default, mirroring `defaultdict` access. -/
def lookupD {α : Type} : List (String × α) → String → α → α
  | [], _, d => d
  | p :: rest, k, d => if p.1 = k then p.2 else lookupD rest k d

/-- Update an assoc list at a key, appending when absent (Python dict
assignment). -/
def updateAssoc {α : Type} : List (String × α) → String → α → List (String × α)
  | [], k, v => [(k, v)]
  | p :: rest, k, v => if p.1 = k then (k, v) :: rest else p :: updateAssoc rest k v

def joinComma : List String → String
  | [] => ""
  | [x] => x
  | x :: xs => x ++ ", " ++ joinComma xs

def DataFrame.colD (X : DataFrame) (name : String) : Series :=
  lookupD X.cols name ⟨Dtype.object, [], []⟩

def DataFrame.setCol (X : DataFrame) (name : String) (s : Series) : DataFrame :=
  { X with cols := updateAssoc X.cols name s }

/-- The distinct values of a list (membership is all downstream code uses;
Python builds a `set`). -/
def distinctVals : List String → List String
  | [] => []
  | a :: rest => if rest.contains a then distinctVals rest else a :: distinctVals rest

/-- `set(X[col].dropna().unique())`. -/
def Series.uniqueVals (s : Series) : List String :=
  distinctVals (s.values.filterMap id)

/-- A cell is consistent with a category list when it is missing or holds a
declared category. -/
def cellOK (cats : List String) : Option String → Prop
  | none => True
  | some a => a ∈ cats

instance (cats : List String) : (v : Option String) → Decidable (cellOK cats v)
  | none => isTrue trivial
  | some a => inferInstanceAs (Decidable (a ∈ cats))

/-- Wellformedness of a series as pandas maintains it: a categorical column
has pairwise-distinct declared categories and every non-missing cell holds a
declared category. -/
def Series.WF (s : Series) : Prop :=
  s.dtype = Dtype.categorical →
    (s.categories.Nodup ∧ ∀ v ∈ s.values, cellOK s.categories v)

instance (s : Series) : Decidable s.WF := by
  unfold Series.WF; infer_instance

def DataFrame.WF (X : DataFrame) : Prop :=
  (X.cols.map Prod.fst).Nodup ∧
    ∀ p ∈ X.cols, p.2.values.length = X.index.length ∧ p.2.WF

instance (X : DataFrame) : Decidable X.WF := by
  unfold DataFrame.WF; infer_instance

/-- Every column of the table is of categorical dtype. -/
def AllCat (X : DataFrame) : Prop :=
  ∀ p ∈ X.cols, p.2.dtype = Dtype.categorical

instance (X : DataFrame) : Decidable (AllCat X) := by
  unfold AllCat; infer_instance

/-- `_check_categorical`: raise a `ValueError` naming the non-categorical
columns if any column is not of categorical dtype. -/
def checkCategorical (X : DataFrame) : Except String Unit :=
  let nonCategoricals := (X.cols.filter (fun p => p.2.dtype ≠ Dtype.categorical)).map Prod.fst
  if nonCategoricals.isEmpty then Except.ok ()
  else Except.error ("All columns passed must be categorical dtype. " ++
    "The following columns are not: " ++ joinComma nonCategoricals ++ ".")

/-- `check_array(X, dtype=None, force_all_finite=False)` (and the `X` part
of `check_X_y`): with numeric checks disabled it still rejects degenerate
shapes (no rows / no columns). -/
def checkArrayDF (X : DataFrame) : Except String Unit :=
  if X.index.length = 0 then Except.error ("Found array with 0 sample(s)")
  else if X.cols.length = 0 then Except.error ("Found array with 0 feature(s)")
  else Except.ok ()

/-- `check_is_fitted(self)` passes iff the estimator has an attribute whose
name ends in an underscore.  Both `Categorizer.__init__` and
`CategoryGrouper.__init__` create such an attribute (`categories_`,
`categories_to_group_`), so for these estimators the check always passes,
fitted or not. -/
def checkIsFitted : Except String Unit := Except.ok ()

/-! ### Categorizer -/

/-- Fitted state of `Categorizer`: `handle_unknown` plus the
`categories_` defaultdict (column name to fitted category list).
`__init__` stores any `handle_unknown` string without validation and
creates `categories_` as an empty `defaultdict(list)`. -/
structure Categorizer where
  handle_unknown : String
  categories_ : List (String × List String)
deriving DecidableEq

def Categorizer.init (handle_unknown : String) : Categorizer :=
  ⟨handle_unknown, []⟩

/-- The per-column assignment loop shared by both `fit` methods:
`self.dict_[col] = F(col)` for each column, in column order. -/
def fitLoop (F : String × Series → List String) :
    List (String × Series) → List (String × List String) → List (String × List String)
  | [], acc => acc
  | p :: rest, acc => fitLoop F rest (updateAssoc acc p.1 (F p))

/-- `Categorizer.fit`: after `check_X_y` and `_check_categorical`, store per
column the declared categories (`X[col].astype("category").cat.categories`
leaves an already-categorical column unchanged, so this is the declared
category `Index`, not the observed values). -/
def Categorizer.fit (c : Categorizer) (X : DataFrame) : Except String Categorizer := do
  checkArrayDF X
  checkCategorical X
  pure { c with categories_ := fitLoop (fun p => p.2.categories) X.cols c.categories_ }

/-- Elementwise addition of a pandas `Index` of strings with a list, as in
`self.categories_[col] + unknown_categories`: object-dtype `Index.__add__`
is numpy elementwise `+`, which concatenates the strings (with length-1
broadcasting); it is not list concatenation.  (For a column missing from the
`categories_` defaultdict the Python value would be a plain list and `+`
would concatenate the lists; no theorem below exercises that path.) -/
def indexAdd (xs ys : List String) : Except String (List String) :=
  if xs.length = ys.length then Except.ok (List.zipWith (fun a b => a ++ b) xs ys)
  else if ys.length = 1 then Except.ok (xs.map (fun a => a ++ ys.headD ""))
  else if xs.length = 1 then Except.ok (ys.map (fun b => xs.headD "" ++ b))
  else Except.error ("operands could not be broadcast together")

/-- Recoding of one cell to a new category domain: values outside the domain
become missing. -/
def recodeCell (cats : List String) (v : Option String) : Option String :=
  v.bind (fun a => if cats.contains a then some a else none)

/-- Replacement of one cell when its value lies in `hits`. -/
def replaceCell (hits : List String) (newVal : Option String) (v : Option String) :
    Option String :=
  match v with
  | some a => if hits.contains a then newVal else some a
  | none => none

/-- `astype(pd.CategoricalDtype(categories=cats))`: recode to a categorical
with exactly `cats` as domain; cells holding a value outside `cats` become
missing.  pandas rejects duplicate categories. -/
def Series.astypeCat (s : Series) (cats : List String) : Except String Series :=
  if cats.Nodup then
    Except.ok ⟨Dtype.categorical, s.values.map (recodeCell cats), cats⟩
  else Except.error ("Categorical categories must be unique")

/-- `X_copy.loc[X_copy[col].isin(hits), col] = newVal`: boolean-mask
assignment into one column.  Writing a string that is not a declared
category of a categorical column raises (the mask is nonempty whenever the
callers below reach this statement); writing `NaN` is always allowed. -/
def Series.setWhere (s : Series) (hits : List String) (newVal : Option String) :
    Except String Series :=
  match newVal with
  | none => Except.ok { s with values := s.values.map (replaceCell hits none) }
  | some b =>
    if s.dtype = Dtype.categorical ∧ b ∉ s.categories then
      Except.error ("Cannot setitem on a Categorical with a new category")
    else Except.ok { s with values := s.values.map (replaceCell hits (some b)) }

/-- The body of `Categorizer.transform` for one column: compute the unknown
values (observed values absent from the fitted categories) and dispatch on
`handle_unknown`; an unrecognized policy takes no branch, leaving the copied
column untouched.  (The trailing `categories_not_present` block only logs.) -/
def Categorizer.transformCol (c : Categorizer) (name : String) (s : Series) :
    Except String Series :=
  let cats := lookupD c.categories_ name []
  let unknown := s.uniqueVals.filter (fun v => ¬ cats.contains v)
  if unknown.isEmpty then
    s.astypeCat cats
  else if c.handle_unknown = "error" then
    Except.error ("Found " ++ toString unknown.length ++
      " unknown categories in column " ++ name ++ " during fit.")
  else if c.handle_unknown = "ignore" then do
    let newCats ← indexAdd cats unknown
    s.astypeCat newCats
  else if c.handle_unknown = "missing" then do
    let s1 ← s.setWhere unknown none
    s1.astypeCat cats
  else if c.handle_unknown = "mark" then do
    let s1 ← s.setWhere unknown (some "(unknown)")
    let newCats ← indexAdd cats ["(unknown)"]
    s1.astypeCat newCats
  else
    Except.ok s

/-- The column loop of `Categorizer.transform` over the copy, in column
order, stopping at the first raised error. -/
def Categorizer.transformCols (c : Categorizer) :
    List (String × Series) → Except String (List (String × Series))
  | [] => Except.ok []
  | p :: rest => do
    let s ← c.transformCol p.1 p.2
    let rest2 ← Categorizer.transformCols c rest
    pure ((p.1, s) :: rest2)

/-- `Categorizer.transform`: `check_is_fitted`, `check_array`, copy the
input, rewrite each column of the copy, return the copy. -/
def Categorizer.transform (c : Categorizer) (X : DataFrame) : Except String DataFrame := do
  checkIsFitted
  checkArrayDF X
  let cols ← Categorizer.transformCols c X.cols
  pure { X with cols := cols }

/-! ### CategoryGrouper -/

/-- Fitted state of `CategoryGrouper`: the two thresholds, the residual
label `other_value` and the `categories_to_group_` defaultdict.  The source
has no `ignore_missing` parameter.  `__init__` creates
`categories_to_group_` as an empty defaultdict. -/
structure CategoryGrouper where
  threshold_absolute : Nat
  threshold_relative : ℚ
  other_value : String
  categories_to_group_ : List (String × List String)
deriving DecidableEq

def CategoryGrouper.init (threshold_absolute : Nat) (threshold_relative : ℚ)
    (other_value : String) : CategoryGrouper :=
  ⟨threshold_absolute, threshold_relative, other_value, []⟩

/-- `X[col].value_counts()` on a categorical column: the occurrence count of
every declared category, missing cells excluded.  (pandas sorts the result
by descending count; everything below uses only which pairs occur, so the
sort is left out and declaration order kept.) -/
def Series.valueCounts (s : Series) : List (String × Nat) :=
  s.categories.map (fun c => (c, s.values.count (some c)))

/-- `value_counts["count"].sum()`: the denominator of the `share` column. -/
def Series.countsTotal (s : Series) : Nat :=
  (s.valueCounts.map Prod.snd).sum

/-- `count / total >= threshold_relative` on the float `share` column.  When
`total = 0` the share is `0/0 = NaN` and the comparison is `False`. -/
def sharePred (tR : ℚ) (cnt total : Nat) : Bool :=
  total != 0 && decide (tR ≤ (cnt : ℚ) / (total : ℚ))

/-- The preservation mask of `CategoryGrouper.fit`:
`count >= threshold_absolute & share >= threshold_relative`. -/
def preservePred (tA : Nat) (tR : ℚ) (cnt total : Nat) : Bool :=
  decide (tA ≤ cnt) && sharePred tR cnt total

/-- One column of `CategoryGrouper.fit`: the values failing the preservation
mask, i.e. `value_counts[~preserve_mask]["value"].tolist()`. -/
def CategoryGrouper.fitColGroups (g : CategoryGrouper) (s : Series) : List String :=
  let vc := s.valueCounts
  let total := s.countsTotal
  (vc.filter (fun p => ! preservePred g.threshold_absolute g.threshold_relative p.2 total)).map Prod.fst

/-- `CategoryGrouper.fit`: after `check_X_y` and `_check_categorical`,
record per column the list of category values to group. -/
def CategoryGrouper.fit (g : CategoryGrouper) (X : DataFrame) :
    Except String CategoryGrouper := do
  checkArrayDF X
  checkCategorical X
  pure { g with categories_to_group_ := fitLoop (fun p => g.fitColGroups p.2) X.cols g.categories_to_group_ }

/-- `.cat.add_categories(c)`: requires a categorical column and a genuinely
new category. -/
def Series.addCategories (s : Series) (c : String) : Except String Series :=
  if s.dtype ≠ Dtype.categorical then
    Except.error ("Can only use .cat accessor with a 'category' dtype")
  else if s.categories.contains c then
    Except.error ("new categories must not include old categories")
  else Except.ok { s with categories := s.categories ++ [c] }

/-- `.cat.remove_categories(removals)`: every removal must be a declared
category; cells holding a removed category become missing. -/
def Series.removeCategories (s : Series) (removals : List String) : Except String Series :=
  if s.dtype ≠ Dtype.categorical then
    Except.error ("Can only use .cat accessor with a 'category' dtype")
  else if removals.all (fun c => s.categories.contains c) then
    Except.ok ⟨Dtype.categorical, s.values.map (replaceCell removals none),
      s.categories.filter (fun c => ¬ removals.contains c)⟩
  else Except.error ("removals must all be in old categories")

/-- Appending one cell to a series (row enlargement).  Appending a string
that is not a declared category of a categorical column is not modelled
(pandas would upcast; the only caller appends `other_value`, which it has
just added to the categories). -/
def Series.appendCell (s : Series) (v : Option String) : Except String Series :=
  match v with
  | none => Except.ok { s with values := s.values ++ [none] }
  | some b =>
    if s.dtype = Dtype.categorical ∧ b ∉ s.categories then
      Except.error ("Cannot setitem on a Categorical with a new category")
    else Except.ok { s with values := s.values ++ [some b] }

def setCellsAt (mask : List Bool) (newVal : Option String) (vals : List (Option String)) :
    List (Option String) :=
  List.zipWith (fun m v => if m then newVal else v) mask vals

/-- `X_copy.loc[lab, col] = v`, scalar row-label assignment: if `lab` is an
existing row label, set `col` at every row carrying that label; otherwise
pandas *enlarges* the frame, appending a new row labelled `lab` whose `col`
cell is `v` and whose other cells are missing. -/
def DataFrame.locSet (X : DataFrame) (lab : RowLab) (colName : String) (v : String) :
    Except String DataFrame :=
  if X.index.contains lab then do
    let mask := X.index.map (fun l => l == lab)
    let s := X.colD colName
    if s.dtype = Dtype.categorical ∧ v ∉ s.categories then
      Except.error ("Cannot setitem on a Categorical with a new category")
    else
      Except.ok (X.setCol colName { s with values := setCellsAt mask (some v) s.values })
  else do
    let cols ← X.cols.mapM (fun p => do
      let s ← if p.1 = colName then p.2.appendCell (some v) else p.2.appendCell none
      pure (p.1, s))
    pure ⟨X.index ++ [lab], cols⟩

/-- The `for old_category in self.categories_to_group_[col]` loop of
`CategoryGrouper.transform`: one row-label assignment per grouped value. -/
def CategoryGrouper.locSetLoop (ov : String) (colName : String) :
    List String → DataFrame → Except String DataFrame
  | [], X => Except.ok X
  | c :: rest, X => do
    let X2 ← X.locSet (RowLab.str c) colName ov
    CategoryGrouper.locSetLoop ov colName rest X2

/-- The body of `CategoryGrouper.transform` for one column name: skipped
when the column has nothing to group, otherwise add the residual category,
assign `other_value` at the row *labelled* by each grouped value (sic), and
remove the grouped categories. -/
def CategoryGrouper.transformStep (g : CategoryGrouper) (X : DataFrame) (name : String) :
    Except String DataFrame := do
  let grp := lookupD g.categories_to_group_ name []
  if grp.isEmpty then pure X
  else do
    let s1 ← (X.colD name).addCategories g.other_value
    let X1 := X.setCol name s1
    let X2 ← CategoryGrouper.locSetLoop g.other_value name grp X1
    let s2 ← (X2.colD name).removeCategories grp
    pure (X2.setCol name s2)

def CategoryGrouper.transformLoop (g : CategoryGrouper) :
    List String → DataFrame → Except String DataFrame
  | [], X => Except.ok X
  | n :: rest, X => do
    let X2 ← g.transformStep X n
    CategoryGrouper.transformLoop g rest X2

/-- `CategoryGrouper.transform`: `check_is_fitted`, `check_array`, copy,
then the per-column grouping loop over the copy. -/
def CategoryGrouper.transform (g : CategoryGrouper) (X : DataFrame) :
    Except String DataFrame := do
  checkIsFitted
  checkArrayDF X
  CategoryGrouper.transformLoop g (X.cols.map Prod.fst) X

/-! ### CategoryMissingAdder -/

/-- `CategoryMissingAdder` keeps no fitted state beyond its construction
parameter. -/
structure CategoryMissingAdder where
  missing_value : String
deriving DecidableEq

def CategoryMissingAdder.init (missing_value : String) : CategoryMissingAdder :=
  ⟨missing_value⟩

/-- `CategoryMissingAdder.fit`: validation only. -/
def CategoryMissingAdder.fit (m : CategoryMissingAdder) (X : DataFrame) :
    Except String CategoryMissingAdder := do
  checkArrayDF X
  checkCategorical X
  pure m

def CategoryMissingAdder.transformCols (m : CategoryMissingAdder) :
    List (String × Series) → Except String (List (String × Series))
  | [] => Except.ok []
  | p :: rest => do
    let s ← p.2.addCategories m.missing_value
    let rest2 ← CategoryMissingAdder.transformCols m rest
    pure ((p.1, s) :: rest2)

/-- `CategoryMissingAdder.transform`: `check_array` (no fitted-state check),
copy, then `add_categories(missing_value)` on every column of the copy. -/
def CategoryMissingAdder.transform (m : CategoryMissingAdder) (X : DataFrame) :
    Except String DataFrame := do
  checkArrayDF X
  let cols ← m.transformCols X.cols
  pure { X with cols := cols }

/-! ### Reference model for mutation (frame effect of `transform`)

pandas frames are reference values; `X.copy()` allocates fresh storage.  To
state that `transform` never mutates its argument, frames live in a heap of
storage slots.  Each `transform` reads its input slot, allocates a copy
slot (`X_copy = X.copy()`), performs every column write on the copy slot,
and returns the copy slot.  The heap is returned in both the success and
the error case. -/

def Heap := List DataFrame

def Heap.read (h : Heap) (r : Nat) : DataFrame :=
  List.getD h r ⟨[], []⟩

def Heap.write (h : Heap) (r : Nat) (X : DataFrame) : Heap :=
  List.set h r X

def Heap.alloc (h : Heap) (X : DataFrame) : Heap × Nat :=
  (List.append h [X], List.length h)

def Heap.size (h : Heap) : Nat :=
  List.length h

/-- `X.copy()` produces an equal value in fresh storage. -/
def DataFrame.copy (X : DataFrame) : DataFrame := X

/-- The column loop of `Categorizer.transform` on the heap: each iteration
reads column `col` of the input slot `r` and writes the recoded column into
the copy slot `rc`. -/
def Categorizer.transformHCols (c : Categorizer) (rc : Nat) :
    List (String × Series) → Heap → Heap × Except String Unit
  | [], h => (h, Except.ok ())
  | p :: rest, h =>
    match c.transformCol p.1 p.2 with
    | Except.error e => (h, Except.error e)
    | Except.ok s =>
      Categorizer.transformHCols c rc rest (h.write rc ((h.read rc).setCol p.1 s))

def Categorizer.transformH (c : Categorizer) (h : Heap) (r : Nat) :
    Heap × Except String Nat :=
  match checkArrayDF (h.read r) with
  | Except.error e => (h, Except.error e)
  | Except.ok _ =>
    let X := h.read r
    let a := h.alloc X.copy
    match Categorizer.transformHCols c a.2 X.cols a.1 with
    | (h2, Except.ok _) => (h2, Except.ok a.2)
    | (h2, Except.error e) => (h2, Except.error e)

/-- The column loop of `CategoryGrouper.transform` on the heap: each
iteration rewrites the whole frame held in the copy slot `rc` (row
enlargement touches every column). -/
def CategoryGrouper.transformHLoop (g : CategoryGrouper) (rc : Nat) :
    List String → Heap → Heap × Except String Unit
  | [], h => (h, Except.ok ())
  | n :: rest, h =>
    match g.transformStep (h.read rc) n with
    | Except.error e => (h, Except.error e)
    | Except.ok X2 => CategoryGrouper.transformHLoop g rc rest (h.write rc X2)

def CategoryGrouper.transformH (g : CategoryGrouper) (h : Heap) (r : Nat) :
    Heap × Except String Nat :=
  match checkArrayDF (h.read r) with
  | Except.error e => (h, Except.error e)
  | Except.ok _ =>
    let X := h.read r
    let a := h.alloc X.copy
    match CategoryGrouper.transformHLoop g a.2 (X.cols.map Prod.fst) a.1 with
    | (h2, Except.ok _) => (h2, Except.ok a.2)
    | (h2, Except.error e) => (h2, Except.error e)

/-- The column loop of `CategoryMissingAdder.transform` on the heap. -/
def CategoryMissingAdder.transformHCols (m : CategoryMissingAdder) (rc : Nat) :
    List (String × Series) → Heap → Heap × Except String Unit
  | [], h => (h, Except.ok ())
  | p :: rest, h =>
    match p.2.addCategories m.missing_value with
    | Except.error e => (h, Except.error e)
    | Except.ok s =>
      CategoryMissingAdder.transformHCols m rc rest (h.write rc ((h.read rc).setCol p.1 s))

def CategoryMissingAdder.transformH (m : CategoryMissingAdder) (h : Heap) (r : Nat) :
    Heap × Except String Nat :=
  match checkArrayDF (h.read r) with
  | Except.error e => (h, Except.error e)
  | Except.ok _ =>
    let X := h.read r
    let a := h.alloc X.copy
    match CategoryMissingAdder.transformHCols m a.2 X.cols a.1 with
    | (h2, Except.ok _) => (h2, Except.ok a.2)
    | (h2, Except.error e) => (h2, Except.error e)

/-- Non-missing cell count of a column (what `value_counts` totals actually
add up to, since `value_counts` drops `NaN`). -/
def Series.nonMissingCount (s : Series) : Nat :=
  s.values.countP (fun v => v.isSome)

/-! ### Concrete tables and estimator states used by the theorems -/

/-- `pd.DataFrame({"var1": pd.Categorical(["a","a","a","b"])})`. -/
def Xgroup : DataFrame :=
  ⟨[RowLab.num 0, RowLab.num 1, RowLab.num 2, RowLab.num 3],
   [("var1", ⟨Dtype.categorical, [some "a", some "a", some "a", some "b"], ["a", "b"]⟩)]⟩

/-- The state `CategoryGrouper(threshold_absolute=2)` reaches after fitting
on `Xgroup`. -/
def gGroup : CategoryGrouper := ⟨2, 0, "(other)", [("var1", ["b"])]⟩

/-- `pd.DataFrame({"var1": pd.Categorical(["a"])})`. -/
def Xone : DataFrame :=
  ⟨[RowLab.num 0], [("var1", ⟨Dtype.categorical, [some "a"], ["a"]⟩)]⟩

/-- `Xone` after one `CategoryMissingAdder` application. -/
def Yone : DataFrame :=
  ⟨[RowLab.num 0], [("var1", ⟨Dtype.categorical, [some "a"], ["a", "(missing)"]⟩)]⟩

/-- `pd.DataFrame({"var1": pd.Categorical([np.nan], categories=["a"])})`:
a declared category that never occurs. -/
def XnoObs : DataFrame :=
  ⟨[RowLab.num 0], [("var1", ⟨Dtype.categorical, [none], ["a"]⟩)]⟩

/-- Fit table of the `handle_unknown="mark"` concrete case. -/
def XfitMark : DataFrame :=
  ⟨[RowLab.num 0], [("var1", ⟨Dtype.categorical, [some "a"], ["a"]⟩)]⟩

/-- Apply table of the `handle_unknown="mark"` concrete case:
`pd.DataFrame({"var1": ["a", "z"]})` (object dtype). -/
def XappMark : DataFrame :=
  ⟨[RowLab.num 0, RowLab.num 1], [("var1", ⟨Dtype.object, [some "a", some "z"], []⟩)]⟩

/-- The float `0.6` as an exact rational. -/
def threeFifths : ℚ := ⟨3, 5, by norm_num, by norm_num⟩

/-- `pd.DataFrame({"var1": pd.Categorical(["a", np.nan])})`: two rows, one
of them missing. -/
def XhalfNA : DataFrame :=
  ⟨[RowLab.num 0, RowLab.num 1], [("var1", ⟨Dtype.categorical, [some "a", none], ["a"]⟩)]⟩

/-- The state `CategoryGrouper(threshold_relative=0.6)` reaches after
fitting on `XhalfNA`: nothing is grouped. -/
def gHalfNA : CategoryGrouper := ⟨0, threeFifths, "(other)", [("var1", [])]⟩

/-- The test suite's `X_cat_object`: one categorical and one object column. -/
def XcatObj : DataFrame :=
  ⟨[RowLab.num 0],
   [("var1", ⟨Dtype.categorical, [some "a"], ["a"]⟩),
    ("var2", ⟨Dtype.object, [some "b"], []⟩)]⟩

/-- A `Categorizer` carrying the unvalidated policy string `"na"` (the
policy the class docstring even advertises) fitted on a table whose `var1`
categories were `["a"]`. -/
def cNa : Categorizer := ⟨"na", [("var1", ["a"])]⟩

/-- `pd.DataFrame({"var1": pd.Categorical(["a","z"])})`: contains the value
`"z"`, unknown to `cNa`. -/
def XunknownZ : DataFrame :=
  ⟨[RowLab.num 0, RowLab.num 1],
   [("var1", ⟨Dtype.categorical, [some "a", some "z"], ["a", "z"]⟩)]⟩

/-! ### General lemmas -/

instance {ε α : Type} [DecidableEq ε] [DecidableEq α] : DecidableEq (Except ε α) := fun x y =>
  match x, y with
  | Except.ok a, Except.ok b =>
    if h : a = b then isTrue (by rw [h]) else isFalse (fun hc => by cases hc; exact h rfl)
  | Except.ok _, Except.error _ => isFalse (fun hc => by cases hc)
  | Except.error _, Except.ok _ => isFalse (fun hc => by cases hc)
  | Except.error e, Except.error f =>
    if h : e = f then isTrue (by rw [h]) else isFalse (fun hc => by cases hc; exact h rfl)

/-- The share comparison of `CategoryGrouper.fit`, rephrased as an integer
cross-multiplication (used to evaluate `fit` on concrete tables). -/
theorem sharePred_eval (tR : ℚ) (cnt total : Nat) :
    sharePred tR cnt total =
      (total != 0 && decide (tR.num * (total : Int) ≤ (cnt : Int) * (tR.den : Int))) := by
  unfold sharePred
  rcases Nat.eq_zero_or_pos total with h | h
  · subst h; simp
  · have ht : (total != 0) = true := by simpa using Nat.pos_iff_ne_zero.mp h
    simp only [ht, Bool.true_and]
    rw [decide_eq_decide]
    have htq : (0:ℚ) < (total:ℚ) := by exact_mod_cast h
    have hdq : (0:ℚ) < (tR.den:ℚ) := by exact_mod_cast tR.pos
    nth_rewrite 1 [← Rat.num_div_den tR]
    rw [div_le_div_iff₀ hdq htq]
    exact_mod_cast Iff.rfl

theorem contains_iff (l : List String) (a : String) : l.contains a = true ↔ a ∈ l := by
  simp [List.contains, List.elem_iff]

theorem lookupD_updateAssoc_self {α : Type} (l : List (String × α)) (k : String) (v : α)
    (d : α) : lookupD (updateAssoc l k v) k d = v := by
  induction l with
  | nil => simp [updateAssoc, lookupD]
  | cons p rest ih =>
    by_cases h : p.1 = k
    · simp [updateAssoc, h, lookupD]
    · simp [updateAssoc, h, lookupD, ih]

theorem lookupD_updateAssoc_ne {α : Type} (l : List (String × α)) (k k2 : String) (v : α)
    (d : α) (h : k2 ≠ k) : lookupD (updateAssoc l k v) k2 d = lookupD l k2 d := by
  induction l with
  | nil => simp [updateAssoc, lookupD, Ne.symm h]
  | cons p rest ih =>
    by_cases hp : p.1 = k
    · simp [updateAssoc, hp, lookupD, Ne.symm h]
    · by_cases hp2 : p.1 = k2
      · simp [updateAssoc, hp, lookupD, hp2, h]
      · simp [updateAssoc, hp, lookupD, hp2, ih]

theorem fitLoop_lookup_notmem (F : String × Series → List String)
    (l : List (String × Series)) (acc : List (String × List String)) (k : String)
    (d : List String) (h : k ∉ l.map Prod.fst) :
    lookupD (fitLoop F l acc) k d = lookupD acc k d := by
  induction l generalizing acc with
  | nil => rfl
  | cons p rest ih =>
    simp only [List.map_cons, List.mem_cons] at h
    push_neg at h
    rw [fitLoop, ih _ h.2, lookupD_updateAssoc_ne _ _ _ _ _ h.1]

theorem fitLoop_lookup (F : String × Series → List String)
    (l : List (String × Series)) (acc : List (String × List String))
    (hn : (l.map Prod.fst).Nodup) (p : String × Series) (hp : p ∈ l) :
    lookupD (fitLoop F l acc) p.1 [] = F p := by
  induction l generalizing acc with
  | nil => cases hp
  | cons q rest ih =>
    simp only [List.map_cons, List.nodup_cons] at hn
    rcases List.mem_cons.mp hp with h | h
    · subst h
      rw [fitLoop, fitLoop_lookup_notmem _ _ _ _ _ hn.1, lookupD_updateAssoc_self]
    · rw [fitLoop]
      exact ih _ hn.2 h

theorem mem_distinctVals (l : List String) (a : String) : a ∈ distinctVals l ↔ a ∈ l := by
  induction l with
  | nil => simp [distinctVals]
  | cons b rest ih =>
    by_cases h : rest.contains b
    · have hb : b ∈ rest := (contains_iff rest b).mp h
      simp only [distinctVals, h, if_pos]
      rw [ih]
      constructor
      · intro hm; exact List.mem_cons_of_mem _ hm
      · intro hm
        rcases List.mem_cons.mp hm with rfl | hm
        · exact hb
        · exact hm
    · simp only [distinctVals, h, if_neg, Bool.false_eq_true, not_false_iff]
      simp [ih]

theorem mem_uniqueVals (s : Series) (a : String) : a ∈ s.uniqueVals ↔ some a ∈ s.values := by
  unfold Series.uniqueVals
  rw [mem_distinctVals]
  simp [List.mem_filterMap]

theorem ok_bind {ε α β : Type} (a : α) (f : α → Except ε β) :
    ((Except.ok a : Except ε α) >>= f) = f a := rfl

theorem error_bind {ε α β : Type} (e : ε) (f : α → Except ε β) :
    ((Except.error e : Except ε α) >>= f) = Except.error e := rfl

theorem bind_ok_iff {ε α β : Type} (x : Except ε α) (f : α → Except ε β) (b : β) :
    (x >>= f) = Except.ok b ↔ ∃ a, x = Except.ok a ∧ f a = Except.ok b := by
  cases x with
  | error e =>
    constructor
    · intro h; cases h
    · rintro ⟨a, ha, _⟩; cases ha
  | ok a =>
    constructor
    · intro h; exact ⟨a, rfl, h⟩
    · rintro ⟨a2, ha, hf⟩
      cases ha
      exact hf

theorem pure_ok_iff {ε α : Type} (a b : α) :
    (pure a : Except ε α) = Except.ok b ↔ a = b := by
  constructor
  · intro h; cases h; rfl
  · intro h; rw [h]; rfl

theorem checkArray_ok_iff (X : DataFrame) :
    checkArrayDF X = Except.ok () ↔ X.index.length ≠ 0 ∧ X.cols.length ≠ 0 := by
  unfold checkArrayDF
  by_cases h1 : X.index.length = 0
  · simp [h1]
  · by_cases h2 : X.cols.length = 0
    · simp [h1, h2]
    · simp [h1, h2]

theorem checkCategorical_ok_iff (X : DataFrame) :
    checkCategorical X = Except.ok () ↔ AllCat X := by
  unfold checkCategorical AllCat
  by_cases h : ((X.cols.filter (fun p => p.2.dtype ≠ Dtype.categorical)).map Prod.fst).isEmpty
  · simp only [h, if_pos]
    rw [List.isEmpty_iff, List.map_eq_nil_iff, List.filter_eq_nil_iff] at h
    constructor
    · intro _ p hp
      have := h p hp
      simpa using this
    · intro _; trivial
  · simp only [h, if_neg, Bool.false_eq_true, not_false_iff]
    constructor
    · intro hc; cases hc
    · intro hall
      exfalso
      apply h
      rw [List.isEmpty_iff, List.map_eq_nil_iff, List.filter_eq_nil_iff]
      intro p hp
      simp [hall p hp]

theorem fitColGroups_mem (g : CategoryGrouper) (s : Series) (v : String) :
    v ∈ g.fitColGroups s ↔ v ∈ s.categories ∧
      preservePred g.threshold_absolute g.threshold_relative
        (s.values.count (some v)) s.countsTotal = false := by
  unfold CategoryGrouper.fitColGroups
  constructor
  · intro hmem
    rcases List.mem_map.mp hmem with ⟨p, hpf, rfl⟩
    rcases List.mem_filter.mp hpf with ⟨hp, hfail⟩
    rcases List.mem_map.mp (by simpa [Series.valueCounts] using hp :
      p ∈ s.categories.map (fun c => (c, s.values.count (some c)))) with ⟨c, hc, rfl⟩
    refine ⟨hc, ?_⟩
    simpa using hfail
  · rintro ⟨hv, hfail⟩
    apply List.mem_map.mpr
    refine ⟨(v, s.values.count (some v)),
      List.mem_filter.mpr ⟨?_, ?_⟩, rfl⟩
    · show _ ∈ Series.valueCounts s
      unfold Series.valueCounts
      exact List.mem_map.mpr ⟨v, hv, rfl⟩
    · simpa using hfail

theorem grouper_fit_ok {g g2 : CategoryGrouper} {X : DataFrame}
    (h : g.fit X = Except.ok g2) :
    g2.categories_to_group_ =
      fitLoop (fun p => g.fitColGroups p.2) X.cols g.categories_to_group_ := by
  unfold CategoryGrouper.fit at h
  rw [bind_ok_iff] at h
  rcases h with ⟨u, hA, h⟩
  rw [bind_ok_iff] at h
  rcases h with ⟨u2, hC, h⟩
  rw [pure_ok_iff] at h
  rw [← h]

theorem grouper_fit_ok_fields {g g2 : CategoryGrouper} {X : DataFrame}
    (h : g.fit X = Except.ok g2) :
    g2.threshold_absolute = g.threshold_absolute ∧
      g2.threshold_relative = g.threshold_relative := by
  unfold CategoryGrouper.fit at h
  rw [bind_ok_iff] at h
  rcases h with ⟨u, hA, h⟩
  rw [bind_ok_iff] at h
  rcases h with ⟨u2, hC, h⟩
  rw [pure_ok_iff] at h
  rw [← h]
  exact ⟨rfl, rfl⟩

theorem indicator_sum (cats : List String) (v : Option String) :
    (cats.map (fun c => if v == some c then 1 else 0)).sum
      = (match v with | some w => cats.count w | none => 0) := by
  induction cats with
  | nil => cases v <;> simp
  | cons c cs ih =>
    simp only [List.map_cons, List.sum_cons, ih]
    cases v with
    | none => simp
    | some w =>
      simp only [List.count_cons]
      by_cases hw : w = c
      · subst hw; simp [Nat.add_comm]
      · simp [hw, Ne.symm hw]

theorem counts_sum_eq (cats : List String) (hnd : cats.Nodup)
    (vs : List (Option String)) (hok : ∀ v ∈ vs, cellOK cats v) :
    (cats.map (fun c => vs.count (some c))).sum = vs.countP (fun v => v.isSome) := by
  induction vs with
  | nil => simp
  | cons v rest ih =>
    have hokr : ∀ u ∈ rest, cellOK cats u := fun u hu => hok u (List.mem_cons_of_mem _ hu)
    have hfun : (fun c => ((v :: rest).count (some c)))
        = (fun c => rest.count (some c) + if v == some c then 1 else 0) := by
      funext c
      simp [List.count_cons]
    have hsplit : (cats.map (fun c => ((v :: rest).count (some c)))).sum
        = (cats.map (fun c => rest.count (some c))).sum
          + (cats.map (fun c => if v == some c then 1 else 0)).sum := by
      rw [hfun, List.sum_map_add]
    rw [hsplit, ih hokr, indicator_sum, List.countP_cons]
    cases v with
    | none => simp
    | some w =>
      have hw : w ∈ cats := hok (some w) (List.mem_cons_self _ _)
      simp [List.count_eq_one_of_mem hnd hw]

theorem countsTotal_eq_nonMissing (s : Series) (hd : s.dtype = Dtype.categorical)
    (hwf : s.WF) : s.countsTotal = s.nonMissingCount := by
  rcases hwf hd with ⟨hnd, hok⟩
  unfold Series.countsTotal Series.valueCounts Series.nonMissingCount
  rw [List.map_map]
  exact counts_sum_eq s.categories hnd s.values hok

theorem transformCols_ok (c : Categorizer) (l : List (String × Series))
    (G : String × Series → Series)
    (h : ∀ p ∈ l, c.transformCol p.1 p.2 = Except.ok (G p)) :
    Categorizer.transformCols c l = Except.ok (l.map (fun p => (p.1, G p))) := by
  induction l with
  | nil => rfl
  | cons p rest ih =>
    have hp := h p (List.mem_cons_self _ _)
    have hrest := ih (fun q hq => h q (List.mem_cons_of_mem _ hq))
    rw [Categorizer.transformCols, hp, ok_bind, hrest, ok_bind, List.map_cons]
    rfl

theorem categorizer_transform_ok_of (c : Categorizer) (X : DataFrame)
    (hA : checkArrayDF X = Except.ok ()) (G : String × Series → Series)
    (h : ∀ p ∈ X.cols, c.transformCol p.1 p.2 = Except.ok (G p)) :
    c.transform X = Except.ok ⟨X.index, X.cols.map (fun p => (p.1, G p))⟩ := by
  unfold Categorizer.transform checkIsFitted
  rw [ok_bind, hA, ok_bind, transformCols_ok c X.cols G h, ok_bind]
  rfl

theorem lookupD_map_of_mem (l : List (String × Series)) (G : String × Series → Series)
    (d : Series) (hn : (l.map Prod.fst).Nodup) (p : String × Series) (hp : p ∈ l) :
    lookupD (l.map (fun q => (q.1, G q))) p.1 d = G p := by
  induction l with
  | nil => cases hp
  | cons q rest ih =>
    simp only [List.map_cons, List.nodup_cons] at hn
    rcases List.mem_cons.mp hp with h | h
    · subst h
      simp [lookupD]
    · have hne : q.1 ≠ p.1 := by
        intro he
        exact hn.1 (he ▸ List.mem_map_of_mem Prod.fst h)
      simp only [List.map_cons, lookupD, hne, if_neg]
      exact ih hn.2 h

theorem recode_id (cats : List String) (vals : List (Option String))
    (hok : ∀ v ∈ vals, cellOK cats v) : vals.map (recodeCell cats) = vals := by
  have : ∀ v ∈ vals, recodeCell cats v = id v := by
    intro v hv
    cases v with
    | none => rfl
    | some a =>
      have ha : a ∈ cats := hok (some a) hv
      simp [recodeCell, (contains_iff cats a).mpr ha, ha]
  rw [List.map_congr_left this, List.map_id]

theorem unknown_empty (s : Series) (cats : List String)
    (hsub : ∀ a, some a ∈ s.values → a ∈ cats) :
    (s.uniqueVals.filter (fun v => ¬ cats.contains v)).isEmpty = true := by
  rw [List.isEmpty_iff, List.filter_eq_nil_iff]
  intro a ha
  have : some a ∈ s.values := (mem_uniqueVals s a).mp ha
  simp [(contains_iff cats a).mpr (hsub a this), hsub a this]

theorem transformCol_no_unknown (c : Categorizer) (name : String) (s : Series)
    (hnd : (lookupD c.categories_ name []).Nodup)
    (hsub : ∀ a, some a ∈ s.values → a ∈ lookupD c.categories_ name []) :
    c.transformCol name s = Except.ok
      ⟨Dtype.categorical,
        s.values.map (recodeCell (lookupD c.categories_ name [])),
        lookupD c.categories_ name []⟩ := by
  unfold Categorizer.transformCol
  rw [if_pos (unknown_empty s _ hsub)]
  unfold Series.astypeCat
  rw [if_pos hnd]

theorem categorizer_fit_ok {c c2 : Categorizer} {X : DataFrame}
    (h : c.fit X = Except.ok c2) :
    c2.handle_unknown = c.handle_unknown ∧
      c2.categories_ = fitLoop (fun p => p.2.categories) X.cols c.categories_ := by
  unfold Categorizer.fit at h
  rw [bind_ok_iff] at h
  rcases h with ⟨u, hA, h⟩
  rw [bind_ok_iff] at h
  rcases h with ⟨u2, hC, h⟩
  rw [pure_ok_iff] at h
  rw [← h]
  exact ⟨rfl, rfl⟩

theorem categorizer_fit_succeeds (c : Categorizer) (X : DataFrame)
    (hA : checkArrayDF X = Except.ok ()) (hC : checkCategorical X = Except.ok ()) :
    c.fit X = Except.ok
      { c with categories_ := fitLoop (fun p => p.2.categories) X.cols c.categories_ } := by
  unfold Categorizer.fit
  rw [hA, ok_bind, hC, ok_bind]
  rfl

theorem addCategories_ok {s s2 : Series} {c : String}
    (h : s.addCategories c = Except.ok s2) :
    s.dtype = Dtype.categorical ∧ c ∉ s.categories ∧
      s2 = { s with categories := s.categories ++ [c] } := by
  unfold Series.addCategories at h
  by_cases hd : s.dtype ≠ Dtype.categorical
  · rw [if_pos hd] at h; cases h
  · rw [if_neg hd] at h
    push_neg at hd
    by_cases hc : s.categories.contains c
    · rw [if_pos hc] at h; cases h
    · rw [if_neg hc] at h
      cases h
      refine ⟨hd, ?_, rfl⟩
      intro hmem
      exact hc ((contains_iff _ _).mpr hmem)

theorem addCategories_err_of_mem (s : Series) (c : String)
    (hd : s.dtype = Dtype.categorical) (hc : c ∈ s.categories) :
    s.addCategories c = Except.error ("new categories must not include old categories") := by
  unfold Series.addCategories
  rw [if_neg (by simp [hd]), if_pos ((contains_iff _ _).mpr hc)]

theorem heap_read_write_ne (h : Heap) (r rc : Nat) (X : DataFrame) (hne : rc ≠ r) :
    (h.write rc X).read r = h.read r := by
  unfold Heap.read Heap.write
  rw [List.getD_eq_getElem?_getD, List.getD_eq_getElem?_getD, List.getElem?_set_ne hne]

theorem heap_read_alloc_of_lt (h : Heap) (r : Nat) (X : DataFrame)
    (hr : r < h.size) : ((h.alloc X).1).read r = h.read r := by
  unfold Heap.read Heap.alloc Heap.size at *
  exact List.getD_append h [X] _ r hr

theorem categorizer_hcols_preserves (c : Categorizer) (rc r : Nat) (hne : rc ≠ r) :
    ∀ (l : List (String × Series)) (h : Heap),
      ((Categorizer.transformHCols c rc l h).1).read r = h.read r := by
  intro l
  induction l with
  | nil => intro h; rfl
  | cons p rest ih =>
    intro h
    unfold Categorizer.transformHCols
    cases hc : c.transformCol p.1 p.2 with
    | error e => rfl
    | ok s =>
      rw [ih (h.write rc ((h.read rc).setCol p.1 s))]
      exact heap_read_write_ne h r rc _ hne

theorem grouper_hloop_preserves (g : CategoryGrouper) (rc r : Nat) (hne : rc ≠ r) :
    ∀ (l : List String) (h : Heap),
      ((CategoryGrouper.transformHLoop g rc l h).1).read r = h.read r := by
  intro l
  induction l with
  | nil => intro h; rfl
  | cons n rest ih =>
    intro h
    unfold CategoryGrouper.transformHLoop
    cases hc : g.transformStep (h.read rc) n with
    | error e => rfl
    | ok X2 =>
      rw [ih (h.write rc X2)]
      exact heap_read_write_ne h r rc _ hne

theorem adder_hcols_preserves (m : CategoryMissingAdder) (rc r : Nat) (hne : rc ≠ r) :
    ∀ (l : List (String × Series)) (h : Heap),
      ((CategoryMissingAdder.transformHCols m rc l h).1).read r = h.read r := by
  intro l
  induction l with
  | nil => intro h; rfl
  | cons p rest ih =>
    intro h
    unfold CategoryMissingAdder.transformHCols
    cases hc : p.2.addCategories m.missing_value with
    | error e => rfl
    | ok s =>
      rw [ih (h.write rc ((h.read rc).setCol p.1 s))]
      exact heap_read_write_ne h r rc _ hne

theorem ctransformH_preserves (c : Categorizer) (h : Heap) (r : Nat) (hr : r < h.size) :
    ((c.transformH h r).1).read r = h.read r ∧
      ∀ rout, (c.transformH h r).2 = Except.ok rout → rout ≠ r := by
  unfold Categorizer.transformH
  cases hA : checkArrayDF (h.read r) with
  | error e =>
    exact ⟨rfl, fun rout hc => by cases hc⟩
  | ok u =>
    have hne : h.size ≠ r := Nat.ne_of_gt hr
    rcases hM : Categorizer.transformHCols c (h.alloc (h.read r).copy).2
        (h.read r).cols (h.alloc (h.read r).copy).1 with ⟨h2, res⟩
    have hpres : h2.read r = h.read r := by
      have := categorizer_hcols_preserves c (h.alloc (h.read r).copy).2 r
        (by simpa [Heap.alloc] using hne) (h.read r).cols (h.alloc (h.read r).copy).1
      rw [hM] at this
      simpa [heap_read_alloc_of_lt h r _ hr] using this
    cases res with
    | ok u2 =>
      simp only [hM]
      exact ⟨hpres, fun rout hrout => by
        simp only [Heap.alloc] at hrout
        cases hrout
        simpa [Heap.size] using hne⟩
    | error e =>
      simp only [hM]
      exact ⟨hpres, fun rout hrout => by cases hrout⟩

theorem gtransformH_preserves (g : CategoryGrouper) (h : Heap) (r : Nat) (hr : r < h.size) :
    ((g.transformH h r).1).read r = h.read r ∧
      ∀ rout, (g.transformH h r).2 = Except.ok rout → rout ≠ r := by
  unfold CategoryGrouper.transformH
  cases hA : checkArrayDF (h.read r) with
  | error e =>
    exact ⟨rfl, fun rout hc => by cases hc⟩
  | ok u =>
    have hne : h.size ≠ r := Nat.ne_of_gt hr
    rcases hM : CategoryGrouper.transformHLoop g (h.alloc (h.read r).copy).2
        ((h.read r).cols.map Prod.fst) (h.alloc (h.read r).copy).1 with ⟨h2, res⟩
    have hpres : h2.read r = h.read r := by
      have := grouper_hloop_preserves g (h.alloc (h.read r).copy).2 r
        (by simpa [Heap.alloc] using hne) ((h.read r).cols.map Prod.fst)
        (h.alloc (h.read r).copy).1
      rw [hM] at this
      simpa [heap_read_alloc_of_lt h r _ hr] using this
    cases res with
    | ok u2 =>
      simp only [hM]
      exact ⟨hpres, fun rout hrout => by
        simp only [Heap.alloc] at hrout
        cases hrout
        simpa [Heap.size] using hne⟩
    | error e =>
      simp only [hM]
      exact ⟨hpres, fun rout hrout => by cases hrout⟩

theorem mtransformH_preserves (m : CategoryMissingAdder) (h : Heap) (r : Nat)
    (hr : r < h.size) :
    ((m.transformH h r).1).read r = h.read r ∧
      ∀ rout, (m.transformH h r).2 = Except.ok rout → rout ≠ r := by
  unfold CategoryMissingAdder.transformH
  cases hA : checkArrayDF (h.read r) with
  | error e =>
    exact ⟨rfl, fun rout hc => by cases hc⟩
  | ok u =>
    have hne : h.size ≠ r := Nat.ne_of_gt hr
    rcases hM : CategoryMissingAdder.transformHCols m (h.alloc (h.read r).copy).2
        (h.read r).cols (h.alloc (h.read r).copy).1 with ⟨h2, res⟩
    have hpres : h2.read r = h.read r := by
      have := adder_hcols_preserves m (h.alloc (h.read r).copy).2 r
        (by simpa [Heap.alloc] using hne) (h.read r).cols (h.alloc (h.read r).copy).1
      rw [hM] at this
      simpa [heap_read_alloc_of_lt h r _ hr] using this
    cases res with
    | ok u2 =>
      simp only [hM]
      exact ⟨hpres, fun rout hrout => by
        simp only [Heap.alloc] at hrout
        cases hrout
        simpa [Heap.size] using hne⟩
    | error e =>
      simp only [hM]
      exact ⟨hpres, fun rout hrout => by cases hrout⟩

theorem preservePred_true_iff (tA : Nat) (tR : ℚ) (cnt total : Nat) :
    preservePred tA tR cnt total = true ↔
      (tA ≤ cnt ∧ sharePred tR cnt total = true) := by
  unfold preservePred
  rw [Bool.and_eq_true, decide_eq_true_eq]

/-- Core characterization of a freshly constructed grouper after `fit`: a
declared category value is absent from the grouped list iff it meets both
thresholds, and the grouped list only holds declared category values. -/
theorem grouper_grouped_iff (tA : Nat) (tR : ℚ) (ov : String) (X : DataFrame)
    (g2 : CategoryGrouper) (hnd : (X.cols.map Prod.fst).Nodup)
    (hfit : (CategoryGrouper.init tA tR ov).fit X = Except.ok g2)
    (p : String × Series) (hp : p ∈ X.cols) :
    (∀ w ∈ lookupD g2.categories_to_group_ p.1 [], w ∈ p.2.categories) ∧
    ∀ v ∈ p.2.categories,
      (v ∉ lookupD g2.categories_to_group_ p.1 [] ↔
        (tA ≤ p.2.values.count (some v) ∧
          sharePred tR (p.2.values.count (some v)) p.2.countsTotal = true)) := by
  have hgr := grouper_fit_ok hfit
  have hlook : lookupD g2.categories_to_group_ p.1 []
      = (CategoryGrouper.init tA tR ov).fitColGroups p.2 := by
    rw [hgr]
    exact fitLoop_lookup _ X.cols _ hnd p hp
  constructor
  · intro w hw
    rw [hlook] at hw
    exact ((fitColGroups_mem _ _ _).mp hw).1
  · intro v hv
    rw [hlook]
    rw [fitColGroups_mem]
    constructor
    · intro hnot
      cases hb : preservePred tA tR (p.2.values.count (some v)) p.2.countsTotal with
      | false => exact absurd ⟨hv, hb⟩ hnot
      | true => exact (preservePred_true_iff tA tR _ _).mp hb
    · rintro ⟨h1, h2⟩ hcontra
      rcases hcontra with ⟨_, hfalse⟩
      simp only [CategoryGrouper.init] at hfalse
      rw [(preservePred_true_iff tA tR _ _).mpr ⟨h1, h2⟩] at hfalse
      cases hfalse

/-- Claim C1 (code bug, evaluated at the failing input): fitting
`CategoryGrouper(threshold_absolute=2)` on `{"var1":
Categorical(["a","a","a","b"])}` groups `"b"`, but transforming that very
table does not replace the `"b"` cell with `"(other)"`: the statement
`X_copy.loc[old_category, col] = self.other_value` indexes rows by label,
so it appends a new row labelled `"b"` holding `"(other)"`, and
`remove_categories` then turns the original `"b"` cell into a missing
value.  The claimed behavior (cells `["a","a","a","(other)"]` over the
original four rows) does not occur. -/
theorem c1_grouper_transform_misgroups :
    (CategoryGrouper.init 2 0 ("(other)")).fit Xgroup = Except.ok gGroup ∧
    gGroup.categories_to_group_ = [("var1", ["b"])] ∧
    CategoryGrouper.transform gGroup Xgroup = Except.ok
      ⟨[RowLab.num 0, RowLab.num 1, RowLab.num 2, RowLab.num 3, RowLab.str "b"],
       [("var1", ⟨Dtype.categorical,
         [some "a", some "a", some "a", none, some "(other)"], ["a", "(other)"]⟩)]⟩ := by
  refine ⟨?_, rfl, by decide⟩
  simp only [CategoryGrouper.fit, CategoryGrouper.fitColGroups, preservePred, sharePred_eval]
  decide

/-- Claim C2 (confirmed): on every table, a freshly constructed
`CategoryGrouper` fitted on it preserves a declared column value iff the
value's count meets `threshold_absolute` AND its share meets
`threshold_relative` (share as the code computes it: count over the
`value_counts` total); every other declared value lands in that column's
grouped list, which holds only declared values. -/
theorem c2_grouper_fit_preserve_iff :
    ∀ (tA : Nat) (tR : ℚ) (ov : String) (X : DataFrame) (g2 : CategoryGrouper),
      (X.cols.map Prod.fst).Nodup →
      (CategoryGrouper.init tA tR ov).fit X = Except.ok g2 →
      ∀ p ∈ X.cols,
        (∀ w ∈ lookupD g2.categories_to_group_ p.1 [], w ∈ p.2.categories) ∧
        ∀ v ∈ p.2.categories,
          (v ∉ lookupD g2.categories_to_group_ p.1 [] ↔
            (tA ≤ p.2.values.count (some v) ∧
              sharePred tR (p.2.values.count (some v)) p.2.countsTotal = true)) := by
  intro tA tR ov X g2 hnd hfit p hp
  exact grouper_grouped_iff tA tR ov X g2 hnd hfit p hp

/-- Witness for C2 at the concrete table `Xgroup` with
`threshold_absolute=2`. -/
theorem c2_grouper_fit_preserve_iff_witness :
    ((Xgroup.cols.map Prod.fst).Nodup) ∧
    ((CategoryGrouper.init 2 0 ("(other)")).fit Xgroup = Except.ok gGroup) ∧
    (∀ p ∈ Xgroup.cols,
      (∀ w ∈ lookupD gGroup.categories_to_group_ p.1 [], w ∈ p.2.categories) ∧
      ∀ v ∈ p.2.categories,
        (v ∉ lookupD gGroup.categories_to_group_ p.1 [] ↔
          (2 ≤ p.2.values.count (some v) ∧
            sharePred 0 (p.2.values.count (some v)) p.2.countsTotal = true))) := by
  have hnd : (Xgroup.cols.map Prod.fst).Nodup := by decide
  have hfit : (CategoryGrouper.init 2 0 ("(other)")).fit Xgroup = Except.ok gGroup := by
    simp only [CategoryGrouper.fit, CategoryGrouper.fitColGroups, preservePred, sharePred_eval]
    decide
  exact ⟨hnd, hfit, c2_grouper_fit_preserve_iff 2 0 ("(other)") Xgroup gGroup hnd hfit⟩

/-- Claim C7 counterexample: with `threshold_relative = 0.6` and the table
`{"var1": Categorical(["a", NaN])}` (two rows, one missing), `fit`
preserves `"a"` (its grouped list is empty) although a share of
count / number-of-rows = 1/2 fails the `>= 0.6` comparison; the share the
code actually compares is `1/1`, because `value_counts` drops missing
rows from the denominator.  So the compared share is not count over the
total number of rows. -/
theorem c7_counterexample_row_denominator :
    (CategoryGrouper.init 0 threeFifths ("(other)")).fit XhalfNA = Except.ok gHalfNA ∧
    lookupD gHalfNA.categories_to_group_ "var1" [] = [] ∧
    (XhalfNA.colD "var1").values.count (some "a") = 1 ∧
    XhalfNA.index.length = 2 ∧
    sharePred threeFifths ((XhalfNA.colD "var1").values.count (some "a"))
      XhalfNA.index.length = false := by
  refine ⟨?_, by decide, by decide, by decide, ?_⟩
  · simp only [CategoryGrouper.fit, CategoryGrouper.fitColGroups, preservePred, sharePred_eval]
    decide
  · rw [sharePred_eval]
    decide

/-- Claim C7 (amended): the share compared against `threshold_relative` is
the value count divided by the column's *non-missing* cell count (the
`value_counts` total), not by the number of rows of the table: a declared
value is preserved iff it meets the absolute threshold and that share
meets the relative threshold. -/
theorem c7_amended_share_over_nonmissing :
    ∀ (tA : Nat) (tR : ℚ) (ov : String) (X : DataFrame) (g2 : CategoryGrouper),
      X.WF → AllCat X →
      (CategoryGrouper.init tA tR ov).fit X = Except.ok g2 →
      ∀ p ∈ X.cols, ∀ v ∈ p.2.categories,
        (v ∉ lookupD g2.categories_to_group_ p.1 [] ↔
          (tA ≤ p.2.values.count (some v) ∧
            sharePred tR (p.2.values.count (some v)) p.2.nonMissingCount = true)) := by
  intro tA tR ov X g2 hwf hac hfit p hp v hv
  have heq : p.2.countsTotal = p.2.nonMissingCount :=
    countsTotal_eq_nonMissing p.2 (hac p hp) ((hwf.2 p hp).2)
  rw [← heq]
  exact (grouper_grouped_iff tA tR ov X g2 hwf.1 hfit p hp).2 v hv

/-- Witness for C7 (amended) at `XhalfNA` with `threshold_relative = 0.6`:
the share of `"a"` is `1/1`, so `"a"` is preserved. -/
theorem c7_amended_share_over_nonmissing_witness :
    (XhalfNA.WF) ∧ (AllCat XhalfNA) ∧
    ((CategoryGrouper.init 0 threeFifths ("(other)")).fit XhalfNA = Except.ok gHalfNA) ∧
    (("a" ∉ lookupD gHalfNA.categories_to_group_ "var1" [] ↔
      (0 ≤ (⟨Dtype.categorical, [some "a", none], ["a"]⟩ : Series).values.count (some "a") ∧
        sharePred threeFifths
          ((⟨Dtype.categorical, [some "a", none], ["a"]⟩ : Series).values.count (some "a"))
          (⟨Dtype.categorical, [some "a", none], ["a"]⟩ : Series).nonMissingCount = true))) := by
  have hwf : XhalfNA.WF := by decide
  have hac : AllCat XhalfNA := by decide
  have hfit : (CategoryGrouper.init 0 threeFifths ("(other)")).fit XhalfNA =
      Except.ok gHalfNA := by
    simp only [CategoryGrouper.fit, CategoryGrouper.fitColGroups, preservePred, sharePred_eval]
    decide
  refine ⟨hwf, hac, hfit, ?_⟩
  exact c7_amended_share_over_nonmissing 0 threeFifths ("(other)") XhalfNA gHalfNA hwf hac hfit
    ("var1", ⟨Dtype.categorical, [some "a", none], ["a"]⟩) (by decide) "a" (by decide)

/-- Claim C3 counterexample: fit stores the *declared* category `Index`,
not the observed unique values.  On `{"var1": Categorical([NaN],
categories=["a"])}`, the round trip succeeds but the output domain is
`["a"]` while the set of observed unique values is empty. -/
theorem c3_counterexample_declared_vs_observed :
    (Categorizer.init ("error")).fit XnoObs = Except.ok ⟨"error", [("var1", ["a"])]⟩ ∧
    Categorizer.transform ⟨"error", [("var1", ["a"])]⟩ XnoObs =
      Except.ok ⟨[RowLab.num 0], [("var1", ⟨Dtype.categorical, [none], ["a"]⟩)]⟩ ∧
    (XnoObs.colD "var1").uniqueVals = [] ∧
    (⟨Dtype.categorical, [none], ["a"]⟩ : Series).categories ≠
      (XnoObs.colD "var1").uniqueVals := by
  decide

/-- Claim C3 (amended): fitting a fresh `Categorizer` on an all-categorical
table and transforming that same table with `handle_unknown="error"` never
raises, and each output column keeps the input column's cell values with
the *declared* category domain of the fitted table (a superset of the
observed unique values). -/
theorem c3_amended_roundtrip_never_raises :
    ∀ X : DataFrame, X.WF → AllCat X → checkArrayDF X = Except.ok () →
      ∃ c2 Y, (Categorizer.init ("error")).fit X = Except.ok c2 ∧
        c2.transform X = Except.ok Y ∧ Y.index = X.index ∧
        ∀ p ∈ X.cols, Y.colD p.1 = ⟨Dtype.categorical, p.2.values, p.2.categories⟩ := by
  intro X hwf hac hA
  have hC : checkCategorical X = Except.ok () := (checkCategorical_ok_iff X).mpr hac
  have hfit := categorizer_fit_succeeds (Categorizer.init ("error")) X hA hC
  set c2 : Categorizer :=
    { Categorizer.init ("error") with
      categories_ := fitLoop (fun p => p.2.categories) X.cols
        (Categorizer.init ("error")).categories_ } with hc2
  have hlookup : ∀ p ∈ X.cols, lookupD c2.categories_ p.1 [] = p.2.categories := by
    intro p hp
    rw [hc2]
    exact fitLoop_lookup _ X.cols _ hwf.1 p hp
  have hcols : ∀ p ∈ X.cols, c2.transformCol p.1 p.2 =
      Except.ok ⟨Dtype.categorical, p.2.values, p.2.categories⟩ := by
    intro p hp
    rcases (hwf.2 p hp).2 (hac p hp) with ⟨hnd2, hok⟩
    have hl := hlookup p hp
    have hsub : ∀ a, some a ∈ p.2.values → a ∈ lookupD c2.categories_ p.1 [] := by
      intro a hmem
      rw [hl]
      have := hok (some a) hmem
      simpa [cellOK] using this
    have ht := transformCol_no_unknown c2 p.1 p.2 (by rw [hl]; exact hnd2) hsub
    rw [hl] at ht
    rw [ht, recode_id p.2.categories p.2.values hok]
  refine ⟨c2, _, hfit, categorizer_transform_ok_of c2 X hA _ hcols, rfl, ?_⟩
  intro p hp
  exact lookupD_map_of_mem X.cols _ _ hwf.1 p hp

/-- Witness for C3 (amended) at `{"var1": Categorical(["a"])}`. -/
theorem c3_amended_roundtrip_never_raises_witness :
    (Xone.WF) ∧ (AllCat Xone) ∧ (checkArrayDF Xone = Except.ok ()) ∧
    (∃ c2 Y, (Categorizer.init ("error")).fit Xone = Except.ok c2 ∧
      c2.transform Xone = Except.ok Y ∧ Y.index = Xone.index ∧
      ∀ p ∈ Xone.cols, Y.colD p.1 = ⟨Dtype.categorical, p.2.values, p.2.categories⟩) := by
  refine ⟨by decide, by decide, by decide, ?_⟩
  exact c3_amended_roundtrip_never_raises Xone (by decide) (by decide) (by decide)

/-- Claim C4 (code bug, evaluated at the failing input): none of the three
estimators raises an "estimator not fitted" error when `transform` is
called on a freshly constructed instance.  `check_is_fitted` passes
because `__init__` already creates the trailing-underscore attribute; on
`{"var1": Categorical(["a"])}` a fresh `Categorizer` (default
`handle_unknown="error"`) raises an unknown-categories `ValueError`
instead, a fresh `CategoryGrouper` returns the copied input unchanged, and
a fresh `CategoryMissingAdder` (which performs no fitted-state check at
all) transforms successfully. -/
theorem c4_unfitted_transform_never_raises_not_fitted :
    Categorizer.transform (Categorizer.init ("error")) Xone =
      Except.error ("Found 1 unknown categories in column var1 during fit.") ∧
    CategoryGrouper.transform (CategoryGrouper.init 2 0 ("(other)")) Xone =
      Except.ok Xone ∧
    CategoryMissingAdder.transform (CategoryMissingAdder.init ("(missing)")) Xone =
      Except.ok Yone := by
  decide

/-- Claim C5 counterexample: `CategoryMissingAdder` is not idempotent — the
second application raises, because `add_categories` rejects an
already-present category. -/
theorem c5_counterexample_second_apply_raises :
    (CategoryMissingAdder.init ("(missing)")).transform Xone = Except.ok Yone ∧
    (CategoryMissingAdder.init ("(missing)")).transform Yone =
      Except.error ("new categories must not include old categories") := by
  decide

/-- Claim C5 (amended): one successful `CategoryMissingAdder.transform`
extends every column's domain with `missing_value`; a second application to
the result always fails, because the label is then already a category. -/
theorem c5_amended_second_apply_always_fails :
    ∀ (m : CategoryMissingAdder) (X Y : DataFrame),
      m.transform X = Except.ok Y → ∃ e, m.transform Y = Except.error e := by
  intro m X Y h
  unfold CategoryMissingAdder.transform at h
  rw [bind_ok_iff] at h
  rcases h with ⟨u, hA, h⟩
  rw [bind_ok_iff] at h
  rcases h with ⟨cols2, hCols, h⟩
  rw [pure_ok_iff] at h
  cases u
  obtain ⟨hidx, hcolsne⟩ := (checkArray_ok_iff X).mp hA
  cases hX : X.cols with
  | nil =>
    rw [hX] at hcolsne
    simp at hcolsne
  | cons p rest =>
    rw [hX] at hCols
    rw [CategoryMissingAdder.transformCols] at hCols
    rw [bind_ok_iff] at hCols
    rcases hCols with ⟨s0, hAdd, hC2⟩
    rw [bind_ok_iff] at hC2
    rcases hC2 with ⟨rest2, hrest, hC3⟩
    rw [pure_ok_iff] at hC3
    rcases addCategories_ok hAdd with ⟨hdt, hnotmem, hs0⟩
    subst h
    refine ⟨"new categories must not include old categories", ?_⟩
    unfold CategoryMissingAdder.transform
    have hAY : checkArrayDF { X with cols := cols2 } = Except.ok () := by
      rw [checkArray_ok_iff]
      refine ⟨hidx, ?_⟩
      rw [← hC3]
      simp
    rw [hAY, ok_bind]
    rw [← hC3]
    rw [CategoryMissingAdder.transformCols]
    have herr : s0.addCategories m.missing_value =
        Except.error ("new categories must not include old categories") := by
      apply addCategories_err_of_mem
      · rw [hs0]
        exact hdt
      · rw [hs0]
        simp
    rw [herr, error_bind, error_bind]

/-- Claim C6 (code bug, evaluated at the failing input): fit
`Categorizer(handle_unknown="mark")` on `{"var1": Categorical(["a"])}`,
then transform `{"var1": ["a","z"]}` (object dtype).  The claimed output
(values `["a","(unknown)"]`, domain `{"a","(unknown)"}`) does not occur:
`self.categories_[col] + ["(unknown)"]` is elementwise `Index` addition,
producing the single category `"a(unknown)"`, so the final `astype`
recodes both cells to missing and the domain is `["a(unknown)"]`. -/
theorem c6_mark_concrete_case :
    (Categorizer.init ("mark")).fit XfitMark = Except.ok ⟨"mark", [("var1", ["a"])]⟩ ∧
    Categorizer.transform ⟨"mark", [("var1", ["a"])]⟩ XappMark =
      Except.ok ⟨[RowLab.num 0, RowLab.num 1],
        [("var1", ⟨Dtype.categorical, [none, none], ["a(unknown)"]⟩)]⟩ := by
  decide

/-- Witness for C5 (amended) at `{"var1": Categorical(["a"])}`. -/
theorem c5_amended_second_apply_always_fails_witness :
    ((CategoryMissingAdder.init ("(missing)")).transform Xone = Except.ok Yone) ∧
    (∃ e, (CategoryMissingAdder.init ("(missing)")).transform Yone = Except.error e) := by
  have h1 : (CategoryMissingAdder.init ("(missing)")).transform Xone = Except.ok Yone := by
    decide
  exact ⟨h1, c5_amended_second_apply_always_fails (CategoryMissingAdder.init ("(missing)"))
    Xone Yone h1⟩

/-- Claim C8 (amended): `_check_categorical` passes iff every column is of
categorical dtype (an object column also fails, as the repository's own
test expects), and otherwise raises the `ValueError` naming exactly the
non-categorical columns. -/
theorem c8_amended_check_categorical_iff :
    ∀ X : DataFrame,
      (checkCategorical X = Except.ok () ↔ AllCat X) ∧
      (¬ AllCat X → checkCategorical X = Except.error
        ("All columns passed must be categorical dtype. "
          ++ "The following columns are not: "
          ++ joinComma ((X.cols.filter
                (fun p => p.2.dtype ≠ Dtype.categorical)).map Prod.fst)
          ++ ".")) := by
  intro X
  refine ⟨checkCategorical_ok_iff X, ?_⟩
  intro hnac
  unfold checkCategorical
  by_cases h : ((X.cols.filter (fun p => p.2.dtype ≠ Dtype.categorical)).map Prod.fst).isEmpty
  · exfalso
    rw [List.isEmpty_iff, List.map_eq_nil_iff, List.filter_eq_nil_iff] at h
    exact hnac (fun p hp => by simpa using h p hp)
  · simp only [h, if_neg, Bool.false_eq_true, not_false_iff]

/-- Claim C8 counterexample: the table `X_cat_object` of the repository's
tests has only categorical/object columns, yet `_check_categorical` raises
(naming `var2`): object dtype does not pass. -/
theorem c8_counterexample_object_column_raises :
    checkCategorical XcatObj = Except.error
      ("All columns passed must be categorical dtype. "
        ++ "The following columns are not: var2.") ∧
    ∀ p ∈ XcatObj.cols, (p.2.dtype = Dtype.categorical ∨ p.2.dtype = Dtype.object) := by
  decide

/-- Claim C9 (confirmed): each `transform` reads its input slot, copies it,
and performs every write on the copy slot: whether it succeeds or raises,
the input slot's frame is unchanged, and on success the returned frame
lives in a slot distinct from the input's. -/
theorem c9_transform_never_mutates_input :
    ∀ (c : Categorizer) (g : CategoryGrouper) (m : CategoryMissingAdder)
      (h : Heap) (r : Nat), r < h.size →
      (((c.transformH h r).1).read r = h.read r ∧
        ∀ rout, (c.transformH h r).2 = Except.ok rout → rout ≠ r) ∧
      (((g.transformH h r).1).read r = h.read r ∧
        ∀ rout, (g.transformH h r).2 = Except.ok rout → rout ≠ r) ∧
      (((m.transformH h r).1).read r = h.read r ∧
        ∀ rout, (m.transformH h r).2 = Except.ok rout → rout ≠ r) := by
  intro c g m h r hr
  exact ⟨ctransformH_preserves c h r hr, gtransformH_preserves g h r hr,
    mtransformH_preserves m h r hr⟩

/-- Claim C10 (confirmed): the constructor stores any `handle_unknown`
string unchecked, and for a policy outside
`{"error","ignore","missing","mark"}` `transform` takes none of the four
branches on a column with unknown values: it neither raises nor alters
such a column — its values, dtype and categories come back exactly as in
the copied input (columns without unknown values still go through the
usual `astype`). -/
theorem c10_unrecognized_policy_is_inert :
    ∀ (c : Categorizer) (X : DataFrame),
      c.handle_unknown ∉ (["error", "ignore", "missing", "mark"] : List String) →
      X.WF → checkArrayDF X = Except.ok () →
      (∀ p ∈ X.cols, (lookupD c.categories_ p.1 []).Nodup) →
      ∃ Y, c.transform X = Except.ok Y ∧ Y.index = X.index ∧
        ∀ p ∈ X.cols,
          (∃ a, some a ∈ p.2.values ∧ a ∉ lookupD c.categories_ p.1 []) →
          Y.colD p.1 = p.2 := by
  intro c X hpol hwf hA hndcats
  have hnotE : c.handle_unknown ≠ "error" := fun he => hpol (by rw [he]; simp)
  have hnotI : c.handle_unknown ≠ "ignore" := fun he => hpol (by rw [he]; simp)
  have hnotM : c.handle_unknown ≠ "missing" := fun he => hpol (by rw [he]; simp)
  have hnotK : c.handle_unknown ≠ "mark" := fun he => hpol (by rw [he]; simp)
  set G : String × Series → Series := fun q =>
    if ((q.2.uniqueVals.filter
          (fun v => ¬ (lookupD c.categories_ q.1 []).contains v)).isEmpty)
    then (⟨Dtype.categorical,
      q.2.values.map (recodeCell (lookupD c.categories_ q.1 [])),
      lookupD c.categories_ q.1 []⟩ : Series)
    else q.2 with hG
  have hcols : ∀ p ∈ X.cols, c.transformCol p.1 p.2 = Except.ok (G p) := by
    intro p hp
    rw [hG]
    by_cases hemp : ((p.2.uniqueVals.filter
        (fun v => ¬ (lookupD c.categories_ p.1 []).contains v)).isEmpty) = true
    · simp only [hemp, if_true]
      unfold Categorizer.transformCol
      rw [if_pos hemp]
      unfold Series.astypeCat
      rw [if_pos (hndcats p hp)]
    · simp only [hemp, Bool.false_eq_true, if_false]
      unfold Categorizer.transformCol
      rw [if_neg hemp, if_neg hnotE, if_neg hnotI, if_neg hnotM, if_neg hnotK]
  refine ⟨_, categorizer_transform_ok_of c X hA G hcols, rfl, ?_⟩
  intro p hp hex
  rcases hex with ⟨a, hmem, hnot⟩
  have hne : ((p.2.uniqueVals.filter
      (fun v => ¬ (lookupD c.categories_ p.1 []).contains v)).isEmpty) = false := by
    rw [Bool.eq_false_iff]
    intro hif
    rw [List.isEmpty_iff, List.filter_eq_nil_iff] at hif
    have hau : a ∈ p.2.uniqueVals := (mem_uniqueVals p.2 a).mpr hmem
    have h2 := hif a hau
    simp only [decide_eq_true_eq, not_not] at h2
    exact hnot ((contains_iff _ _).mp h2)
  calc (⟨X.index, X.cols.map (fun q => (q.1, G q))⟩ : DataFrame).colD p.1
      = G p := lookupD_map_of_mem X.cols G (⟨Dtype.object, [], []⟩ : Series) hwf.1 p hp
    _ = p.2 := by
      rw [hG]
      simp only [hne, Bool.false_eq_true, if_false]

/-- Witness for C10: the policy string `"na"` (which the class docstring
even advertises) with a fitted domain `["a"]` on a table whose `var1`
holds the unknown value `"z"`. -/
theorem c10_unrecognized_policy_is_inert_witness :
    (cNa.handle_unknown ∉ (["error", "ignore", "missing", "mark"] : List String)) ∧
    (XunknownZ.WF) ∧ (checkArrayDF XunknownZ = Except.ok ()) ∧
    (∀ p ∈ XunknownZ.cols, (lookupD cNa.categories_ p.1 []).Nodup) ∧
    (∃ Y, cNa.transform XunknownZ = Except.ok Y ∧ Y.index = XunknownZ.index ∧
      ∀ p ∈ XunknownZ.cols,
        (∃ a, some a ∈ p.2.values ∧ a ∉ lookupD cNa.categories_ p.1 []) →
        Y.colD p.1 = p.2) := by
  refine ⟨by decide, by decide, by decide, by decide, ?_⟩
  exact c10_unrecognized_policy_is_inert cNa XunknownZ (by decide) (by decide)
    (by decide) (by decide)

/-- Witness for C9 on the one-slot heap holding `Xone`. -/
theorem c9_transform_never_mutates_input_witness :
    ((0 : Nat) < Heap.size [Xone]) ∧
    (((((Categorizer.init ("error")).transformH [Xone] 0).1).read 0 = Heap.read [Xone] 0 ∧
      ∀ rout, ((Categorizer.init ("error")).transformH [Xone] 0).2 = Except.ok rout →
        rout ≠ 0) ∧
    ((((CategoryGrouper.init 2 0 ("(other)")).transformH [Xone] 0).1).read 0 =
        Heap.read [Xone] 0 ∧
      ∀ rout, ((CategoryGrouper.init 2 0 ("(other)")).transformH [Xone] 0).2 =
        Except.ok rout → rout ≠ 0) ∧
    ((((CategoryMissingAdder.init ("(missing)")).transformH [Xone] 0).1).read 0 =
        Heap.read [Xone] 0 ∧
      ∀ rout, ((CategoryMissingAdder.init ("(missing)")).transformH [Xone] 0).2 =
        Except.ok rout → rout ≠ 0)) := by
  have h0 : (0 : Nat) < Heap.size [Xone] := by decide
  exact ⟨h0, c9_transform_never_mutates_input (Categorizer.init ("error"))
    (CategoryGrouper.init 2 0 ("(other)")) (CategoryMissingAdder.init ("(missing)"))
    [Xone] 0 h0⟩

/-- Witness for C8 (amended) at the mixed categorical/object table. -/
theorem c8_amended_check_categorical_iff_witness :
    (¬ AllCat XcatObj) ∧
    (checkCategorical XcatObj = Except.error
      ("All columns passed must be categorical dtype. "
        ++ "The following columns are not: "
        ++ joinComma ((XcatObj.cols.filter
              (fun p => p.2.dtype ≠ Dtype.categorical)).map Prod.fst)
        ++ ".")) := by
  exact ⟨by decide, (c8_amended_check_categorical_iff XcatObj).2 (by decide)⟩
